import Mathlib

/-!
Shallow embedding of the firing pipeline of the event-trigger platform:
trigger/schedule data model, repository operations over in-memory row lists
(mirroring the SQL statements), the event firing service, the webhook intake
handler, the scheduler engine, and the retention steps. Instants are modelled
as `Int` epoch seconds; row sets as `List`s in insertion order.
-/

namespace ETP

/-- Trigger type, from `internal/models/trigger.go`. -/
inductive TriggerType
  | webhook
  | timeScheduled
  | cronScheduled
deriving DecidableEq, Repr

/-- Trigger status, from `internal/models/trigger.go`. -/
inductive TriggerStatus
  | active
  | inactive
deriving DecidableEq, Repr

/-- Schedule row status, from `internal/models/trigger.go`. -/
inductive ScheduleStatus
  | pending
  | processing
  | completed
  | cancelled
deriving DecidableEq, Repr

/-- Event source, from `internal/models/event.go`. -/
inductive EventSource
  | webhook
  | scheduler
  | manualTest
deriving DecidableEq, Repr

/-- Execution status of an event log, from `internal/models/event.go`. -/
inductive ExecutionStatus
  | success
  | failure
deriving DecidableEq, Repr

/-- Retention status of an event log, from `internal/models/event.go`.
A physically deleted row is simply absent from the list. -/
inductive RetentionStatus
  | active
  | archived
deriving DecidableEq, Repr

/-- A `triggers` row, from `internal/models/trigger.go`. The JSON `config`
blob is kept as an uninterpreted string; parsed views of it are passed to the
operations that need them, mirroring `json.Unmarshal` at the call sites. -/
structure Trigger where
  id : String
  name : String
  type : TriggerType
  status : TriggerStatus
  config : String
deriving DecidableEq, Repr

/-- A `trigger_schedules` row, from `internal/models/trigger.go`. -/
structure TriggerSchedule where
  id : String
  triggerId : String
  fireAt : Int
  status : ScheduleStatus
  attemptCount : Nat
  lastAttemptAt : Option Int
  updatedAt : Int
deriving DecidableEq, Repr

/-- An `event_logs` row, from `internal/models/event.go`. -/
structure EventLog where
  id : String
  triggerId : Option String
  triggerType : TriggerType
  firedAt : Int
  payload : Option String
  source : EventSource
  executionStatus : ExecutionStatus
  errorMessage : Option String
  retentionStatus : RetentionStatus
  isTestRun : Bool
  createdAt : Int
deriving DecidableEq, Repr

/-- A bus message, from `platform/events/publisher.go` (`TriggerEvent`). -/
structure TriggerEvent where
  eventId : String
  triggerId : String
  type : TriggerType
  payload : Option String
  firedAt : Int
  source : EventSource
deriving DecidableEq, Repr

/-- The relational state the firing pipeline touches. -/
structure DBState where
  triggers : List Trigger
  schedules : List TriggerSchedule
  eventLogs : List EventLog
deriving DecidableEq, Repr

/-! ### Schedule repository operations (`internal/storage/event_logs.go`) -/

/-- Source `UpdateScheduleStatus` (event_logs.go): `UPDATE trigger_schedules SET
status = ?, updated_at = NOW() WHERE id = ?`; errors when rows affected = 0,
i.e. exactly when no row with the id exists. The `WHERE` clause matches on
the id alone — there is no condition on the current status. -/
def updateScheduleStatusDB (schedId : String) (st : ScheduleStatus) (now : Int)
    (rows : List TriggerSchedule) : Except String (List TriggerSchedule) :=
  if rows.any (fun r => r.id = schedId) then
    .ok (rows.map (fun r =>
      if r.id = schedId then { r with status := st, updatedAt := now } else r))
  else
    .error ("schedule not found: " ++ schedId)

/-- Source `RevertScheduleToPending` (event_logs.go): sets status to pending,
increments `attempt_count`, stamps `last_attempt_at` and `updated_at`;
errors when no row with the id exists. -/
def revertScheduleToPendingDB (schedId : String) (now : Int)
    (rows : List TriggerSchedule) : Except String (List TriggerSchedule) :=
  if rows.any (fun r => r.id = schedId) then
    .ok (rows.map (fun r =>
      if r.id = schedId then
        { r with status := .pending, attemptCount := r.attemptCount + 1,
                 lastAttemptAt := some now, updatedAt := now }
      else r))
  else
    .error ("schedule not found: " ++ schedId)

/-- Source `CreateNextSchedule` (event_logs.go): plain `INSERT` of a new row. -/
def createNextScheduleDB (s : TriggerSchedule) (rows : List TriggerSchedule) :
    List TriggerSchedule :=
  rows ++ [s]

/-- Source `DeactivateTrigger` (event_logs.go): sets the trigger inactive; errors
when no row with the id exists. -/
def deactivateTriggerDB (trigId : String) (trs : List Trigger) :
    Except String (List Trigger) :=
  if trs.any (fun t => t.id = trigId) then
    .ok (trs.map (fun t =>
      if t.id = trigId then { t with status := .inactive } else t))
  else
    .error ("trigger not found: " ++ trigId)

/-- A second claim attempt on a schedule row that is already `processing`:
the conditional the claim describes does not exist, so the update still
matches the row and reports success. -/
def alreadyClaimedRow : TriggerSchedule :=
  { id := "s1", triggerId := "t1", fireAt := 0, status := .processing,
    attemptCount := 0, lastAttemptAt := none, updatedAt := 1 }

/-! ### Event log repository operations (`internal/storage/event_logs.go`) -/

/-- Source `CreateEventLog`: plain `INSERT` of one row. Repository failures are
injected at the call sites that can see them. -/
def createEventLogDB (l : EventLog) (logs : List EventLog) : List EventLog :=
  logs ++ [l]

/-- Source `UpdateEventLogStatus`: patches `execution_status` and `error_message`
of the row with the given id (the only two mutable fields). -/
def updateEventLogStatusDB (eventId : String) (st : ExecutionStatus)
    (msg : Option String) (logs : List EventLog) : List EventLog :=
  logs.map (fun l =>
    if l.id = eventId then { l with executionStatus := st, errorMessage := msg } else l)

/-- Source `GetEventLog`: returns the row or `none` (not an error) when absent. -/
def getEventLogDB (eventId : String) (logs : List EventLog) : Option EventLog :=
  logs.find? (fun l => l.id = eventId)

/-! ### Event Firing Service (`internal/events/service.go`, `FireTrigger`) -/

/-- Result of one `FireTrigger` call: the returned event id, the returned
error if any, the event-log table afterwards, and the bus messages that were
accepted by the publisher during the call. -/
structure FireResult where
  eventId : String
  fireError : Option String
  logs : List EventLog
  published : List TriggerEvent
deriving DecidableEq, Repr

/-- Source `FireTrigger` from `internal/events/service.go`. The generated UUID is
passed in as `eventId`; the outcomes of the two external effects — the
repository insert and the Kafka publish — are injected as `createLogErr`
and `publishErr` (`none` = success). Marshalling of a JSON-object payload is
total in the model, and the ignored error of the post-failure status patch
is dropped exactly as the source drops it. Steps mirror the source: build
the log with `execution_status=success, retention_status=active`; insert it
(insert failure aborts with the error and an empty event id, before any
publish); publish; on publish failure patch the log to
`execution_status=failure` with the Kafka reason and return the error
together with the event id; on success return the event id. -/
def fireTrigger (createLogErr publishErr : Option String) (eventId : String)
    (trigger : Trigger) (source : EventSource) (payload : Option String)
    (isTestRun : Bool) (now : Int) (logs : List EventLog) : FireResult :=
  let log : EventLog :=
    { id := eventId,
      triggerId := if trigger.id = "" then none else some trigger.id,
      triggerType := trigger.type, firedAt := now, payload := payload,
      source := source, executionStatus := .success, errorMessage := none,
      retentionStatus := .active, isTestRun := isTestRun, createdAt := now }
  match createLogErr with
  | some e =>
      { eventId := "", fireError := some ("failed to create event log: " ++ e),
        logs := logs, published := [] }
  | none =>
      let logs1 := createEventLogDB log logs
      let ev : TriggerEvent :=
        { eventId := eventId, triggerId := trigger.id, type := trigger.type,
          payload := payload, firedAt := now, source := source }
      match publishErr with
      | some e =>
          { eventId := eventId,
            fireError := some ("failed to publish event to Kafka: " ++ e),
            logs := updateEventLogStatusDB eventId .failure
              (some ("Kafka publish failed: " ++ e)) logs1,
            published := [] }
      | none =>
          { eventId := eventId, fireError := none, logs := logs1,
            published := [ev] }

/-! ### Trigger repository operations (`internal/storage/triggers.go`) -/

/-- Source `CreateTrigger` (triggers.go): inserts the trigger row and, when
present, its first schedule row in one transaction — both appended or, on
any error, neither (the single state construction of the model is the committed
transaction). -/
def createTriggerDB (t : Trigger) (sched : Option TriggerSchedule)
    (st : DBState) : DBState :=
  { st with
    triggers := st.triggers ++ [t],
    schedules :=
      match sched with
      | none => st.schedules
      | some s => st.schedules ++ [{ s with triggerId := t.id, attemptCount := 0 }] }

/-- Source `UpdateTrigger` (triggers.go): applies the non-nil patch columns to the
row with the given id; errors when rows affected = 0 (id absent). -/
def updateTriggerDB (trigId : String) (updName : Option String)
    (updStatus : Option TriggerStatus) (updConfig : Option String)
    (trs : List Trigger) : Except String (List Trigger) :=
  if trs.any (fun t => t.id = trigId) then
    .ok (trs.map (fun t =>
      if t.id = trigId then
        { t with
          name := updName.getD t.name,
          status := updStatus.getD t.status,
          config := updConfig.getD t.config }
      else t))
  else
    .error "trigger not found"

/-- Source `UpsertTriggerSchedule` (triggers.go): in one transaction, sets
`status = cancelled` on every row of the trigger whose status is `pending`
or `processing`, then inserts the new row (when non-nil) with the passed
trigger id and `attempt_count = 0`. -/
def upsertTriggerScheduleDB (trigId : String) (newSched : Option TriggerSchedule)
    (now : Int) (rows : List TriggerSchedule) : List TriggerSchedule :=
  let cancelledRows := rows.map (fun r =>
    if r.triggerId = trigId ∧ (r.status = .pending ∨ r.status = .processing) then
      { r with status := .cancelled, updatedAt := now }
    else r)
  match newSched with
  | none => cancelledRows
  | some s =>
      cancelledRows ++
        [{ id := s.id, triggerId := trigId, fireAt := s.fireAt,
           status := s.status, attemptCount := 0, lastAttemptAt := none,
           updatedAt := now }]

/-- A due schedule joined with its trigger, from
`internal/storage/event_logs.go` (`ScheduleWithTrigger`). -/
structure ScheduleWithTrigger where
  schedule : TriggerSchedule
  trigger : Trigger
deriving DecidableEq, Repr

/-- Insertion step of the `ORDER BY ts.fire_at ASC` ordering. -/
def insertByFireAt (p : ScheduleWithTrigger) :
    List ScheduleWithTrigger → List ScheduleWithTrigger
  | [] => [p]
  | q :: qs =>
      if p.schedule.fireAt ≤ q.schedule.fireAt then p :: q :: qs
      else q :: insertByFireAt p qs

/-- The `ORDER BY ts.fire_at ASC` ordering as an insertion sort. -/
def sortByFireAt : List ScheduleWithTrigger → List ScheduleWithTrigger
  | [] => []
  | p :: ps => insertByFireAt p (sortByFireAt ps)

/-- Source `GetDueSchedules` (event_logs.go): the join
`trigger_schedules INNER JOIN triggers ON ts.trigger_id = t.id` restricted
to `ts.fire_at <= NOW() AND ts.status = pending AND t.status = active`,
ordered by `fire_at` ascending, limited. -/
def getDueSchedulesDB (now : Int) (lim : Nat) (st : DBState) :
    List ScheduleWithTrigger :=
  (sortByFireAt
    ((st.schedules.filter (fun s => s.fireAt ≤ now ∧ s.status = .pending)).flatMap
      (fun s =>
        (st.triggers.filter (fun t => t.id = s.triggerId ∧ t.status = .active)).map
          (fun t => { schedule := s, trigger := t })))).take lim

/-! ### Trigger Service (`internal/triggers/service.go`) -/

/-- Stands for `strings.TrimSpace`: drops leading and trailing whitespace
characters. -/
def trimSpace (s : String) : String :=
  ⟨((s.data.dropWhile (fun c => c.isWhitespace)).reverse.dropWhile
      (fun c => c.isWhitespace)).reverse⟩

/-- The `time_scheduled` config shape from `internal/models/trigger.go`
(`TimeScheduledTriggerConfig`), with `run_at` kept raw as in the request. -/
structure TimeCfg where
  runAt : String
  endpoint : String
  httpMethod : String
  timezone : String
deriving DecidableEq, Repr

/-- Stands for `json.Marshal` of the normalized `time_scheduled` config:
an injective rendering into the stored config string. -/
def renderTimeCfg (c : TimeCfg) : String :=
  c.runAt ++ "|" ++ c.endpoint ++ "|" ++ c.httpMethod ++ "|" ++ c.timezone

/-- Source `prepareTimeSchedule` (service.go). The two calls into the standard
time library are injected: `resolvedTz` is the canonical zone name from
`time.LoadLocation` (`none` = unknown zone), `parsedRunAt` the instant from
`time.ParseInLocation` (`none` = malformed). Mirrors the source order:
missing `run_at` and `endpoint` are validation errors; the method defaults
to POST; the zone resolves or fails; `run_at` parses or fails; a `run_at`
before `now` minus one minute is rejected; otherwise the normalized config
and a `pending` schedule at the `run_at` instant (UTC conversion preserves
the instant) are produced. -/
def prepareTimeSchedule (schedId trigId : String) (cfg : TimeCfg)
    (resolvedTz : Option String) (parsedRunAt : Option Int) (now : Int) :
    Except String (TimeCfg × TriggerSchedule) :=
  if cfg.runAt = "" then
    .error "run_at is required for time_scheduled triggers"
  else if cfg.endpoint = "" then
    .error "endpoint is required for time_scheduled triggers"
  else
    let method := if cfg.httpMethod = "" then "POST" else cfg.httpMethod
    match resolvedTz with
    | none => .error "invalid timezone"
    | some tz =>
        match parsedRunAt with
        | none => .error "invalid run_at"
        | some t =>
            if t < now - 60 then .error "run_at must be in the future"
            else
              .ok ({ cfg with httpMethod := method, timezone := tz },
                { id := schedId, triggerId := trigId, fireAt := t,
                  status := .pending, attemptCount := 0, lastAttemptAt := none,
                  updatedAt := now })

/-- Source `CreateTrigger` (service.go) specialized to the `time_scheduled` branch
of its type switch: trim the name and reject when empty, run
`prepareTimeSchedule`, then persist trigger and schedule through the
transactional `CreateTrigger` repository call. -/
def createTimeScheduledTrigger (trigId schedId name : String) (cfg : TimeCfg)
    (resolvedTz : Option String) (parsedRunAt : Option Int) (now : Int)
    (st : DBState) : Except String DBState :=
  let trimmed := trimSpace name
  if trimmed = "" then .error "name is required"
  else
    match prepareTimeSchedule schedId trigId cfg resolvedTz parsedRunAt now with
    | .error e => .error e
    | .ok (ncfg, sched) =>
        .ok (createTriggerDB
          { id := trigId, name := trimmed, type := .timeScheduled,
            status := .active, config := renderTimeCfg ncfg }
          (some sched) st)

/-- Source `UpdateTrigger` (service.go). The config branch re-validates per the
type of the trigger through type-specific code whose outcome (normalized config
and optional new schedule) is injected as `configOutcome`; it is consulted
only when the patch carries a config. Mirrors the source: fetch the
trigger (not-found propagates); trim a patched name, empty being a
validation error; take a patched status as-is; apply the accumulated
updates; then — only when the config branch produced a schedule — call
`UpsertTriggerSchedule`. -/
def updateTriggerService (trigId : String) (reqName : Option String)
    (reqStatus : Option TriggerStatus) (reqConfigPresent : Bool)
    (configOutcome : Except String (String × Option TriggerSchedule))
    (now : Int) (st : DBState) : Except String DBState :=
  match st.triggers.find? (fun t => t.id = trigId) with
  | none => .error "trigger not found"
  | some _ =>
      let nameRes : Except String (Option String) :=
        match reqName with
        | none => .ok none
        | some n =>
            if trimSpace n = "" then .error "name cannot be empty"
            else .ok (some (trimSpace n))
      match nameRes with
      | .error e => .error e
      | .ok updName =>
          let cfgRes : Except String (Option String × Option TriggerSchedule) :=
            if reqConfigPresent then
              match configOutcome with
              | .error e => .error e
              | .ok (c, s) => .ok (some c, s)
            else .ok (none, none)
          match cfgRes with
          | .error e => .error e
          | .ok (updConfig, newSched) =>
              let applied : Except String (List Trigger) :=
                if updName.isSome ∨ reqStatus.isSome ∨ updConfig.isSome then
                  updateTriggerDB trigId updName reqStatus updConfig st.triggers
                else .ok st.triggers
              match applied with
              | .error e => .error e
              | .ok trs =>
                  let st1 := { st with triggers := trs }
                  match newSched with
                  | none => .ok st1
                  | some s =>
                      .ok { st1 with
                        schedules :=
                          upsertTriggerScheduleDB trigId (some s) now st1.schedules }

/-! ### Webhook intake (`internal/api/handlers/webhooks.go`) -/

/-- The webhook config shape from `internal/models/trigger.go`
(`WebhookTriggerConfig`): `schema` is a JSON-object map, `none` modelling a
nil map and `some []` an empty one. -/
structure WebhookCfg where
  schema : Option (List (String × String))
  endpoint : String
  httpMethod : String
deriving DecidableEq, Repr

/-- Outcome of one HTTP handler invocation: response class, returned event
id, whether the Firing Service was invoked, and the event-log table and bus
messages afterwards. -/
structure HandlerResult where
  status : Nat
  eventId : Option String
  firingInvoked : Bool
  logs : List EventLog
  published : List TriggerEvent
deriving DecidableEq, Repr

/-- Source `ReceiveWebhook` (webhooks.go). External outcomes injected: `body` is
the parsed JSON body (`none` = bind failure), `getTriggerRes` the trigger
service fetch, `parsedConfig` the unmarshalled stored config, `validateRes`
the `gojsonschema.Validate` verdict on (stored schema, body). Mirrors the
source: bind failure → 400; fetch error → 500; absent trigger → 404; wrong
type or inactive → 400; config parse failure → 500; when the stored schema
is non-nil and non-empty the body must validate (validator error → 500,
invalid → 400, no firing in either case); otherwise the trigger is fired
through `FireTrigger` with `source=webhook`, `isTestRun=false` — firing
error → 500, success → 202 with the event id. -/
def receiveWebhook (body : Option String)
    (getTriggerRes : Except String (Option Trigger))
    (parsedConfig : Option WebhookCfg) (validateRes : Except String Bool)
    (createLogErr publishErr : Option String) (eventId : String) (now : Int)
    (logs : List EventLog) : HandlerResult :=
  match body with
  | none =>
      { status := 400, eventId := none, firingInvoked := false,
        logs := logs, published := [] }
  | some b =>
      match getTriggerRes with
      | .error _ =>
          { status := 500, eventId := none, firingInvoked := false,
            logs := logs, published := [] }
      | .ok none =>
          { status := 404, eventId := none, firingInvoked := false,
            logs := logs, published := [] }
      | .ok (some tr) =>
          if tr.type ≠ .webhook then
            { status := 400, eventId := none, firingInvoked := false,
              logs := logs, published := [] }
          else if tr.status ≠ .active then
            { status := 400, eventId := none, firingInvoked := false,
              logs := logs, published := [] }
          else
            match parsedConfig with
            | none =>
                { status := 500, eventId := none, firingInvoked := false,
                  logs := logs, published := [] }
            | some cfg =>
                let doFire : HandlerResult :=
                  let fr := fireTrigger createLogErr publishErr eventId tr
                    .webhook (some b) false now logs
                  match fr.fireError with
                  | some _ =>
                      { status := 500, eventId := some fr.eventId,
                        firingInvoked := true, logs := fr.logs,
                        published := fr.published }
                  | none =>
                      { status := 202, eventId := some fr.eventId,
                        firingInvoked := true, logs := fr.logs,
                        published := fr.published }
                match cfg.schema with
                | some l =>
                    if l.length > 0 then
                      match validateRes with
                      | .error _ =>
                          { status := 500, eventId := none,
                            firingInvoked := false, logs := logs,
                            published := [] }
                      | .ok false =>
                          { status := 400, eventId := none,
                            firingInvoked := false, logs := logs,
                            published := [] }
                      | .ok true => doFire
                    else doFire
                | none => doFire

/-! ### Manual test runs (`internal/api/handlers/triggers.go`) -/

/-- Source `TestTrigger` (triggers.go lines 192–195). The handler body is a stub:
it ignores the request and the stored triggers entirely and responds 404
"trigger not found"; the Firing Service is never invoked and no row is
touched. -/
def testTriggerHandler (_lookup : Option Trigger) (logs : List EventLog) :
    HandlerResult :=
  { status := 404, eventId := none, firingInvoked := false,
    logs := logs, published := [] }

/-! ### Scheduler engine -/

/-- Per-schedule outcomes of the calls the engine makes outward: the config
parse and payload extraction, the repository and publisher
effects, and the cron next-fire computation with the fresh ids used. -/
structure EngineOracles where
  parseOk : Bool
  payload : Option String
  createLogErr : Option String
  publishErr : Option String
  eventId : String
  nextFire : Except String Int
  nextScheduleId : String
deriving Repr

/-- Retry ceiling `M`, default 5. -/
def engineMaxRetries : Nat := 5

/-- Modelled from the spec: `processSchedule` of the scheduler engine. The
engine revision pinned by `internal/scheduler/engine_test.go` and
`internal/scheduler/interfaces.go` (`NewEngineWithClock`, `ScheduleStore`
with `RevertScheduleToPending`, the retry ceiling) is not among the source
snapshots — only older snapshots of `engine.go` plus its tests and
interface declarations are. The steps follow spec §4.7 2a–2e, consistent
with those tests: claim the schedule by `UpdateScheduleStatus(processing)`
(an error skips the rest); parse the config and extract the payload; fire
through `FireTrigger` with `source=scheduler`, `isTestRun=false`; on firing
failure, cancel when `attempt_count + 1 ≥ M` (no increment) and otherwise
`RevertScheduleToPending`; on success mark completed, then deactivate a
`time_scheduled` trigger, or insert the next `pending` occurrence for a
still-active `cron_scheduled` trigger. -/
def processSchedule (maxRetries : Nat) (oc : EngineOracles)
    (swt : ScheduleWithTrigger) (now : Int) (st : DBState) :
    DBState × Option String :=
  let sch := swt.schedule
  let trig := swt.trigger
  match updateScheduleStatusDB sch.id .processing now st.schedules with
  | .error e => (st, some ("failed to mark schedule as processing: " ++ e))
  | .ok rows1 =>
      let st1 := { st with schedules := rows1 }
      if oc.parseOk = false then
        (st1, some "failed to parse trigger config")
      else
        let fr := fireTrigger oc.createLogErr oc.publishErr oc.eventId trig
          .scheduler oc.payload false now st1.eventLogs
        let st2 := { st1 with eventLogs := fr.logs }
        match fr.fireError with
        | some e =>
            if maxRetries ≤ sch.attemptCount + 1 then
              match updateScheduleStatusDB sch.id .cancelled now st2.schedules with
              | .error e2 => (st2, some e2)
              | .ok rows2 => ({ st2 with schedules := rows2 }, some e)
            else
              match revertScheduleToPendingDB sch.id now st2.schedules with
              | .error e2 => (st2, some e2)
              | .ok rows2 => ({ st2 with schedules := rows2 }, some e)
        | none =>
            match updateScheduleStatusDB sch.id .completed now st2.schedules with
            | .error e2 =>
                (st2, some ("failed to mark schedule as completed: " ++ e2))
            | .ok rows2 =>
                let st3 := { st2 with schedules := rows2 }
                match trig.type with
                | .timeScheduled =>
                    match deactivateTriggerDB trig.id st3.triggers with
                    | .error e2 =>
                        (st3, some ("failed to deactivate trigger: " ++ e2))
                    | .ok trs => ({ st3 with triggers := trs }, none)
                | .cronScheduled =>
                    if trig.status = .active then
                      match oc.nextFire with
                      | .error e2 =>
                          (st3, some ("failed to create next schedule: " ++ e2))
                      | .ok nf =>
                          let nextRow : TriggerSchedule :=
                            { id := oc.nextScheduleId, triggerId := trig.id,
                              fireAt := nf, status := .pending,
                              attemptCount := 0, lastAttemptAt := none,
                              updatedAt := now }
                          ({ st3 with
                              schedules := createNextScheduleDB nextRow st3.schedules },
                            none)
                    else (st3, none)
                | .webhook => (st3, none)

/-- The per-tick loop over a claimed batch, from `processSchedules` of
`internal/scheduler/engine.go`: every element is handed to
`processSchedule`; an error only increments the failure counter and the
loop moves on. Returns (state, successCount, failureCount). -/
def runScheduleBatch (ocs : Nat → EngineOracles) (now : Int) :
    List ScheduleWithTrigger → Nat → DBState → DBState × Nat × Nat
  | [], _, st => (st, 0, 0)
  | swt :: rest, i, st =>
      let out := processSchedule engineMaxRetries (ocs i) swt now st
      let res := runScheduleBatch ocs now rest (i + 1) out.1
      match out.2 with
      | some _ => (res.1, res.2.1, res.2.2 + 1)
      | none => (res.1, res.2.1 + 1, res.2.2)

/-- Source `processSchedules` (engine.go): one tick. A `GetDueSchedules` error
(injected as `dueErr`) only ends the tick early; otherwise every element of
the batch is processed in order and the tick returns without error in
either case. -/
def processSchedules (dueErr : Option String) (ocs : Nat → EngineOracles)
    (now : Int) (lim : Nat) (st : DBState) : DBState × Nat × Nat :=
  match dueErr with
  | some _ => (st, 0, 0)
  | none => runScheduleBatch ocs now (getDueSchedulesDB now lim st) 0 st

/-! ### Retention (`db/migrations/004_setup_retention_events.sql`) -/

/-- Archive age: 2 hours, in seconds. -/
def archiveAgeSeconds : Int := 7200

/-- Delete age: 48 hours, in seconds. -/
def deleteAgeSeconds : Int := 172800

/-- The `archive_old_events` job: `UPDATE event_logs SET
retention_status = archived WHERE retention_status = active AND fired_at <
NOW() - INTERVAL 2 HOUR`. -/
def archiveOldEvents (now : Int) (logs : List EventLog) : List EventLog :=
  logs.map (fun l =>
    if l.retentionStatus = .active ∧ l.firedAt < now - archiveAgeSeconds then
      { l with retentionStatus := .archived }
    else l)

/-- The `delete_old_events` job: `DELETE FROM event_logs WHERE fired_at <
NOW() - INTERVAL 48 HOUR` — the window is measured from `fired_at` alone,
with no condition on the retention status. -/
def deleteOldEvents (now : Int) (logs : List EventLog) : List EventLog :=
  logs.filter (fun l => ¬ (l.firedAt < now - deleteAgeSeconds))

/-- A concrete one-trigger, one-pending-schedule state used to exercise the
status-only update path. -/
def sampleCronState : DBState :=
  { triggers :=
      [{ id := "t1", name := "n", type := .cronScheduled, status := .active,
         config := "c" }],
    schedules :=
      [{ id := "s1", triggerId := "t1", fireAt := 1, status := .pending,
         attemptCount := 0, lastAttemptAt := none, updatedAt := 0 }],
    eventLogs := [] }

/-- A concrete active webhook trigger used to exercise the intake path. -/
def sampleWebhookTrigger : Trigger :=
  { id := "t1", name := "wh", type := .webhook, status := .active,
    config := "c" }

/-- A concrete webhook config with a one-field required schema. -/
def sampleWebhookCfg : WebhookCfg :=
  { schema := some [("x", "number")], endpoint := "https://e",
    httpMethod := "POST" }

/-- A concrete `active` event log fired at instant 0, used to exercise the
retention passes. -/
def sampleActiveLog : EventLog :=
  { id := "e1", triggerId := some "t1", triggerType := .webhook,
    firedAt := 0, payload := none, source := .webhook,
    executionStatus := .success, errorMessage := none,
    retentionStatus := .active, isTestRun := false, createdAt := 0 }

/-- Engine oracles for a tick whose Kafka publish fails. -/
def sampleFailOracles : EngineOracles :=
  { parseOk := true, payload := none, createLogErr := none,
    publishErr := some "kafka down", eventId := "e9",
    nextFire := .error "unused", nextScheduleId := "ns" }

/-- One run of either retention job, at an arbitrary instant. -/
inductive RetentionStep : List EventLog → List EventLog → Prop
  | archive (now : Int) (logs : List EventLog) :
      RetentionStep logs (archiveOldEvents now logs)
  | del (now : Int) (logs : List EventLog) :
      RetentionStep logs (deleteOldEvents now logs)

/-- Any number of retention job runs. -/
def RetentionReach : List EventLog → List EventLog → Prop :=
  Relation.ReflTransGen RetentionStep

/-- Rows whose id differs from `eventId` contribute nothing to the filter
for `eventId`. -/
lemma filter_id_eq_nil_of_fresh (eventId : String) (logs : List EventLog)
    (h : ∀ l ∈ logs, l.id ≠ eventId) :
    logs.filter (fun l => l.id = eventId) = [] := by
  induction logs with
  | nil => rfl
  | cons a as ih =>
      have ha : a.id ≠ eventId := h a (by simp)
      simp only [List.filter_cons]
      rw [if_neg (by simpa using ha)]
      exact ih (fun l hl => h l (by simp [hl]))

/-- Patching the status of a freshly appended log leaves the older rows
untouched and rewrites only the new row. -/
lemma updateEventLogStatusDB_append_fresh (eventId : String)
    (st : ExecutionStatus) (msg : Option String) (logs : List EventLog)
    (log : EventLog) (h : ∀ l ∈ logs, l.id ≠ eventId) (hlog : log.id = eventId) :
    updateEventLogStatusDB eventId st msg (logs ++ [log]) =
      logs ++ [{ log with executionStatus := st, errorMessage := msg }] := by
  unfold updateEventLogStatusDB
  rw [List.map_append]
  congr 1
  · have : ∀ l ∈ logs,
        (if l.id = eventId then
          { l with executionStatus := st, errorMessage := msg } else l) = l := by
      intro l hl
      rw [if_neg (h l hl)]
    rw [List.map_congr_left this]
    exact List.map_id logs
  · simp [hlog]

/-- C3: `FireTrigger` persists the event log before any publish is
attempted. If the repository insert fails, the error is returned and no
publish occurs and the table is unchanged. If the publish fails, exactly one
log with the event id exists, patched to `execution_status=failure` with a
populated `error_message`, and the error is returned together with the event
id. On success `(event_id, nil)` is returned and exactly one log with that
event id exists, with `execution_status=success`. -/
theorem c3_fire_trigger_log_before_publish
    (createLogErr publishErr : Option String) (eventId : String)
    (trigger : Trigger) (source : EventSource) (payload : Option String)
    (isTestRun : Bool) (now : Int) (logs : List EventLog)
    (hfresh : ∀ l ∈ logs, l.id ≠ eventId) :
    (createLogErr.isSome →
        (fireTrigger createLogErr publishErr eventId trigger source payload
            isTestRun now logs).fireError.isSome ∧
        (fireTrigger createLogErr publishErr eventId trigger source payload
            isTestRun now logs).published = [] ∧
        (fireTrigger createLogErr publishErr eventId trigger source payload
            isTestRun now logs).logs = logs) ∧
    (createLogErr = none → publishErr.isSome →
        (fireTrigger createLogErr publishErr eventId trigger source payload
            isTestRun now logs).fireError.isSome ∧
        (fireTrigger createLogErr publishErr eventId trigger source payload
            isTestRun now logs).eventId = eventId ∧
        ((fireTrigger createLogErr publishErr eventId trigger source payload
            isTestRun now logs).logs.filter (fun l => l.id = eventId)).length = 1 ∧
        ∀ l ∈ (fireTrigger createLogErr publishErr eventId trigger source payload
            isTestRun now logs).logs, l.id = eventId →
          l.executionStatus = .failure ∧ l.errorMessage.isSome) ∧
    (createLogErr = none → publishErr = none →
        (fireTrigger createLogErr publishErr eventId trigger source payload
            isTestRun now logs).fireError = none ∧
        (fireTrigger createLogErr publishErr eventId trigger source payload
            isTestRun now logs).eventId = eventId ∧
        ((fireTrigger createLogErr publishErr eventId trigger source payload
            isTestRun now logs).logs.filter (fun l => l.id = eventId)).length = 1 ∧
        ∀ l ∈ (fireTrigger createLogErr publishErr eventId trigger source payload
            isTestRun now logs).logs, l.id = eventId →
          l.executionStatus = .success) := by
  have hnil := filter_id_eq_nil_of_fresh eventId logs hfresh
  refine ⟨?_, ?_, ?_⟩
  · intro hc
    rcases Option.isSome_iff_exists.mp hc with ⟨e, he⟩
    subst he
    simp [fireTrigger]
  · intro hc hp
    rcases Option.isSome_iff_exists.mp hp with ⟨e, he⟩
    subst hc he
    simp only [fireTrigger, createEventLogDB]
    rw [updateEventLogStatusDB_append_fresh eventId .failure _ logs _ hfresh rfl]
    refine ⟨by simp, by simp, ?_, ?_⟩
    · rw [List.filter_append, hnil]
      simp
    · intro l hl hid
      rcases List.mem_append.mp hl with h1 | h1
      · exact absurd hid (hfresh l h1)
      · simp only [List.mem_singleton] at h1
        subst h1
        exact ⟨rfl, rfl⟩
  · intro hc hp
    subst hc hp
    simp only [fireTrigger, createEventLogDB]
    refine ⟨by simp, by simp, ?_, ?_⟩
    · rw [List.filter_append, hnil]
      simp
    · intro l hl hid
      rcases List.mem_append.mp hl with h1 | h1
      · exact absurd hid (hfresh l h1)
      · simp only [List.mem_singleton] at h1
        subst h1
        rfl

/-- Witness for C3 at a concrete firing: a trigger with one prior log in the
table, exercised through all three hypothesis combinations. -/
theorem c3_fire_trigger_log_before_publish_witness :
    (∀ l ∈ ([] : List EventLog), l.id ≠ "e1") ∧
    ((some "db down" : Option String).isSome →
        (fireTrigger (some "db down") none "e1"
            { id := "t1", name := "n", type := .webhook, status := .active,
              config := "" } .webhook none false 0 []).fireError.isSome ∧
        (fireTrigger (some "db down") none "e1"
            { id := "t1", name := "n", type := .webhook, status := .active,
              config := "" } .webhook none false 0 []).published = [] ∧
        (fireTrigger (some "db down") none "e1"
            { id := "t1", name := "n", type := .webhook, status := .active,
              config := "" } .webhook none false 0 []).logs = []) := by
  constructor
  · intro l hl
    simp at hl
  · exact (c3_fire_trigger_log_before_publish (some "db down") none "e1"
      { id := "t1", name := "n", type := .webhook, status := .active,
        config := "" } .webhook none false 0 [] (by intro l hl; simp at hl)).1

/-- C2 counterexample: the row `alreadyClaimedRow` is already `processing`
(claimed), yet `UpdateScheduleStatus(s1, processing)` succeeds — it applies
the transition and reports one affected row instead of zero, because the
`WHERE` clause of the update matches on the id alone. -/
theorem c2_unconditional_claim_counterexample :
    alreadyClaimedRow.status = ScheduleStatus.processing ∧
    updateScheduleStatusDB "s1" .processing 2 [alreadyClaimedRow] =
      .ok [{ alreadyClaimedRow with status := .processing, updatedAt := 2 }] := by
  constructor
  · rfl
  · rfl

/-- C2 amended: `UpdateScheduleStatus` applies the requested status to every
row with the given id regardless of its current status; it reports zero rows
affected (a not-found error) exactly when no row with the id exists. A second
claim attempt on an already-claimed row therefore also succeeds. -/
theorem c2_update_schedule_status_unconditional (schedId : String)
    (st : ScheduleStatus) (now : Int) (rows : List TriggerSchedule)
    (hex : ∃ r ∈ rows, r.id = schedId) :
    ∃ rows2, updateScheduleStatusDB schedId st now rows = .ok rows2 ∧
      ∀ r ∈ rows2, r.id = schedId → r.status = st := by
  have hany : rows.any (fun r => r.id = schedId) = true := by
    rcases hex with ⟨r, hr, hid⟩
    exact List.any_eq_true.mpr ⟨r, hr, by simp [hid]⟩
  refine ⟨rows.map (fun r =>
      if r.id = schedId then { r with status := st, updatedAt := now } else r),
    by simp [updateScheduleStatusDB, hany], ?_⟩
  intro r hr hid
  simp only [List.mem_map] at hr
  rcases hr with ⟨r0, _, hmap⟩
  by_cases h0 : r0.id = schedId
  · simp [h0] at hmap
    simp [← hmap]
  · simp [h0] at hmap
    subst hmap
    exact absurd hid h0

/-- C4: evaluating the `TestTrigger` handler at the failing input — a POST
to the test-run route for a trigger that exists and is active — shows the
stub responds 404 not-found and never invokes the Firing Service, contrary
to the own godoc of the handler (fires once, 202 with `is_test_run=true`) and to
the claim. -/
theorem c4_test_trigger_stub_never_fires :
    testTriggerHandler
      (some { id := "trig-1", name := "one-shot", type := .timeScheduled,
              status := .active, config := "" }) [] =
      { status := 404, eventId := none, firingInvoked := false,
        logs := [], published := [] } := rfl

/-- C6: a config update that produces a new schedule runs
`UpsertTriggerSchedule` in one transaction: every `pending`/`processing`
row of the trigger reappears `cancelled`, exactly one `pending` row of the
trigger exists afterwards (the inserted one), and no `processing` row of
the trigger remains — so the trigger has at most one pending schedule. -/
theorem c6_upsert_cancels_and_inserts_single_pending
    (trigId : String) (s : TriggerSchedule) (now : Int)
    (rows : List TriggerSchedule) (hpend : s.status = .pending) :
    (∀ r ∈ rows, r.triggerId = trigId →
        (r.status = .pending ∨ r.status = .processing) →
        ({ r with status := .cancelled, updatedAt := now } : TriggerSchedule) ∈
          upsertTriggerScheduleDB trigId (some s) now rows) ∧
    (upsertTriggerScheduleDB trigId (some s) now rows).countP
        (fun r => r.triggerId = trigId ∧ r.status = .pending) = 1 ∧
    (∀ r ∈ upsertTriggerScheduleDB trigId (some s) now rows,
        r.triggerId = trigId → r.status ≠ .processing) := by
  simp only [upsertTriggerScheduleDB]
  refine ⟨?_, ?_, ?_⟩
  · intro r hr hid hst
    apply List.mem_append_left
    apply List.mem_map.mpr
    exact ⟨r, hr, by rw [if_pos ⟨hid, hst⟩]⟩
  · rw [List.countP_append]
    have h0 : (rows.map (fun r =>
        if r.triggerId = trigId ∧ (r.status = .pending ∨ r.status = .processing) then
          { r with status := .cancelled, updatedAt := now }
        else r)).countP (fun r => r.triggerId = trigId ∧ r.status = .pending) = 0 := by
      apply List.countP_eq_zero.mpr
      intro a ha
      rcases List.mem_map.mp ha with ⟨r, _, hmap⟩
      by_cases hc : r.triggerId = trigId ∧ (r.status = .pending ∨ r.status = .processing)
      · rw [if_pos hc] at hmap
        subst hmap
        simp
      · rw [if_neg hc] at hmap
        subst hmap
        simp only [decide_eq_true_eq, not_and]
        intro hid hst
        exact hc ⟨hid, Or.inl hst⟩
    rw [h0]
    simp [hpend]
  · intro r hr hid
    rcases List.mem_append.mp hr with h1 | h1
    · rcases List.mem_map.mp h1 with ⟨r0, _, hmap⟩
      by_cases hc : r0.triggerId = trigId ∧ (r0.status = .pending ∨ r0.status = .processing)
      · rw [if_pos hc] at hmap
        subst hmap
        simp
      · rw [if_neg hc] at hmap
        subst hmap
        intro hst
        exact hc ⟨hid, Or.inr hst⟩
    · simp only [List.mem_singleton] at h1
      subst h1
      simp [hpend]

/-- Witness for C6 on a concrete table holding a pending row, a processing
row and a completed row of the trigger plus a pending row of another
trigger. -/
theorem c6_upsert_cancels_and_inserts_single_pending_witness :
    (({ id := "new", triggerId := "x", fireAt := 50, status := .pending,
        attemptCount := 3, lastAttemptAt := none, updatedAt := 0 } :
          TriggerSchedule).status = ScheduleStatus.pending) ∧
    ((∀ r ∈ [
        ({ id := "a", triggerId := "t1", fireAt := 10, status := .pending,
           attemptCount := 0, lastAttemptAt := none, updatedAt := 0 } : TriggerSchedule),
        { id := "b", triggerId := "t1", fireAt := 20, status := .processing,
          attemptCount := 1, lastAttemptAt := some 5, updatedAt := 0 },
        { id := "c", triggerId := "t1", fireAt := 30, status := .completed,
          attemptCount := 0, lastAttemptAt := none, updatedAt := 0 },
        { id := "d", triggerId := "t2", fireAt := 40, status := .pending,
          attemptCount := 0, lastAttemptAt := none, updatedAt := 0 }],
        r.triggerId = "t1" →
        (r.status = .pending ∨ r.status = .processing) →
        ({ r with status := .cancelled, updatedAt := 99 } : TriggerSchedule) ∈
          upsertTriggerScheduleDB "t1"
            (some { id := "new", triggerId := "x", fireAt := 50,
                    status := .pending, attemptCount := 3, lastAttemptAt := none,
                    updatedAt := 0 }) 99 [
        { id := "a", triggerId := "t1", fireAt := 10, status := .pending,
          attemptCount := 0, lastAttemptAt := none, updatedAt := 0 },
        { id := "b", triggerId := "t1", fireAt := 20, status := .processing,
          attemptCount := 1, lastAttemptAt := some 5, updatedAt := 0 },
        { id := "c", triggerId := "t1", fireAt := 30, status := .completed,
          attemptCount := 0, lastAttemptAt := none, updatedAt := 0 },
        { id := "d", triggerId := "t2", fireAt := 40, status := .pending,
          attemptCount := 0, lastAttemptAt := none, updatedAt := 0 }]) ∧
      (upsertTriggerScheduleDB "t1"
            (some { id := "new", triggerId := "x", fireAt := 50,
                    status := .pending, attemptCount := 3, lastAttemptAt := none,
                    updatedAt := 0 }) 99 [
        { id := "a", triggerId := "t1", fireAt := 10, status := .pending,
          attemptCount := 0, lastAttemptAt := none, updatedAt := 0 },
        { id := "b", triggerId := "t1", fireAt := 20, status := .processing,
          attemptCount := 1, lastAttemptAt := some 5, updatedAt := 0 },
        { id := "c", triggerId := "t1", fireAt := 30, status := .completed,
          attemptCount := 0, lastAttemptAt := none, updatedAt := 0 },
        { id := "d", triggerId := "t2", fireAt := 40, status := .pending,
          attemptCount := 0, lastAttemptAt := none, updatedAt := 0 }]).countP
        (fun r => r.triggerId = "t1" ∧ r.status = .pending) = 1 ∧
      (∀ r ∈ upsertTriggerScheduleDB "t1"
            (some { id := "new", triggerId := "x", fireAt := 50,
                    status := .pending, attemptCount := 3, lastAttemptAt := none,
                    updatedAt := 0 }) 99 [
        { id := "a", triggerId := "t1", fireAt := 10, status := .pending,
          attemptCount := 0, lastAttemptAt := none, updatedAt := 0 },
        { id := "b", triggerId := "t1", fireAt := 20, status := .processing,
          attemptCount := 1, lastAttemptAt := some 5, updatedAt := 0 },
        { id := "c", triggerId := "t1", fireAt := 30, status := .completed,
          attemptCount := 0, lastAttemptAt := none, updatedAt := 0 },
        { id := "d", triggerId := "t2", fireAt := 40, status := .pending,
          attemptCount := 0, lastAttemptAt := none, updatedAt := 0 }],
        r.triggerId = "t1" → r.status ≠ .processing)) :=
  ⟨by decide,
    c6_upsert_cancels_and_inserts_single_pending "t1"
      { id := "new", triggerId := "x", fireAt := 50, status := .pending,
        attemptCount := 3, lastAttemptAt := none, updatedAt := 0 } 99 _
      (by decide)⟩

/-- C7: creating a `time_scheduled` trigger trims the name and rejects an
empty one; rejects a `run_at` more than one minute in the past relative to
the clock; and otherwise, in one transaction, inserts the trigger row
(carrying the trimmed name and normalized config) together with a `pending`
schedule row whose `fire_at` is the `run_at` instant (UTC conversion
preserves the instant) and whose `attempt_count` is 0. -/
theorem c7_create_time_scheduled_trigger (trigId schedId name : String)
    (cfg : TimeCfg) (tz : String) (t now : Int) (st : DBState) :
    (trimSpace name = "" →
        createTimeScheduledTrigger trigId schedId name cfg (some tz) (some t)
          now st = .error "name is required") ∧
    (trimSpace name ≠ "" → cfg.runAt ≠ "" → cfg.endpoint ≠ "" → t < now - 60 →
        createTimeScheduledTrigger trigId schedId name cfg (some tz) (some t)
          now st = .error "run_at must be in the future") ∧
    (trimSpace name ≠ "" → cfg.runAt ≠ "" → cfg.endpoint ≠ "" → ¬ (t < now - 60) →
        createTimeScheduledTrigger trigId schedId name cfg (some tz) (some t)
          now st =
          .ok { st with
            triggers := st.triggers ++
              [{ id := trigId, name := trimSpace name, type := .timeScheduled,
                 status := .active,
                 config := renderTimeCfg
                   { cfg with
                     httpMethod :=
                       if cfg.httpMethod = "" then "POST" else cfg.httpMethod,
                     timezone := tz } }],
            schedules := st.schedules ++
              [{ id := schedId, triggerId := trigId, fireAt := t,
                 status := .pending, attemptCount := 0, lastAttemptAt := none,
                 updatedAt := now }] }) := by
  refine ⟨?_, ?_, ?_⟩
  · intro h
    simp [createTimeScheduledTrigger, h]
  · intro hn hr he hpast
    simp [createTimeScheduledTrigger, prepareTimeSchedule, hn, hr, he, hpast]
  · intro hn hr he hfuture
    simp [createTimeScheduledTrigger, prepareTimeSchedule, createTriggerDB,
      hn, hr, he, hfuture]

/-- Witness for C7: a concrete creation at `now = 900` with
`run_at = 1000` (in the future) succeeds and inserts both rows. -/
theorem c7_create_time_scheduled_trigger_witness :
    (trimSpace "  metrics push " ≠ "") ∧
    (createTimeScheduledTrigger "t1" "s1" "  metrics push "
        { runAt := "2025-01-01T00:16:40Z", endpoint := "https://e",
          httpMethod := "", timezone := "" } (some "UTC") (some 1000) 900
        { triggers := [], schedules := [], eventLogs := [] } =
      .ok { triggers :=
              [{ id := "t1", name := trimSpace "  metrics push ",
                 type := .timeScheduled, status := .active,
                 config := renderTimeCfg
                   { runAt := "2025-01-01T00:16:40Z", endpoint := "https://e",
                     httpMethod := "POST", timezone := "UTC" } }],
            schedules :=
              [{ id := "s1", triggerId := "t1", fireAt := 1000,
                 status := .pending, attemptCount := 0, lastAttemptAt := none,
                 updatedAt := 900 }],
            eventLogs := [] }) := by
  constructor
  · decide
  · have h := (c7_create_time_scheduled_trigger "t1" "s1" "  metrics push "
      { runAt := "2025-01-01T00:16:40Z", endpoint := "https://e",
        httpMethod := "", timezone := "" } "UTC" 1000 900
      { triggers := [], schedules := [], eventLogs := [] }).2.2
      (by decide) (by decide) (by decide) (by decide)
    simpa using h

/-- Membership is preserved by the insertion step of the fire-at sort. -/
lemma mem_insertByFireAt (a p : ScheduleWithTrigger)
    (l : List ScheduleWithTrigger) :
    a ∈ insertByFireAt p l ↔ a = p ∨ a ∈ l := by
  induction l with
  | nil => simp [insertByFireAt]
  | cons q qs ih =>
      by_cases h : p.schedule.fireAt ≤ q.schedule.fireAt
      · simp [insertByFireAt, h]
      · simp only [insertByFireAt, if_neg h, List.mem_cons, ih]
        tauto

/-- Membership is preserved by the fire-at sort. -/
lemma mem_sortByFireAt (a : ScheduleWithTrigger)
    (l : List ScheduleWithTrigger) :
    a ∈ sortByFireAt l ↔ a ∈ l := by
  induction l with
  | nil => simp [sortByFireAt]
  | cons q qs ih =>
      simp [sortByFireAt, mem_insertByFireAt, ih]

/-- Every pair returned by `GetDueSchedules` joins an active trigger with a
pending, due schedule. -/
lemma getDueSchedulesDB_mem (now : Int) (lim : Nat) (st : DBState)
    (p : ScheduleWithTrigger) (hp : p ∈ getDueSchedulesDB now lim st) :
    p.trigger.status = .active ∧ p.schedule.status = .pending ∧
      p.schedule.fireAt ≤ now := by
  have h1 : p ∈ sortByFireAt
      ((st.schedules.filter (fun s => s.fireAt ≤ now ∧ s.status = .pending)).flatMap
        (fun s =>
          (st.triggers.filter (fun t => t.id = s.triggerId ∧ t.status = .active)).map
            (fun t => { schedule := s, trigger := t }))) :=
    List.mem_of_mem_take hp
  rw [mem_sortByFireAt] at h1
  rcases List.mem_flatMap.mp h1 with ⟨s, hs, hmem⟩
  rcases List.mem_map.mp hmem with ⟨t, ht, hpair⟩
  rcases List.mem_filter.mp hs with ⟨-, hs2⟩
  rcases List.mem_filter.mp ht with ⟨-, ht2⟩
  simp only [decide_eq_true_eq] at hs2 ht2
  subst hpair
  exact ⟨ht2.2, hs2.2, hs2.1⟩

/-- C8: an update whose patch carries only `status` (and possibly `name`)
succeeds while leaving every schedule row untouched, applies the status
value to the trigger as-is, and any schedule of an inactive trigger is
excluded at claim time because `GetDueSchedules` only joins triggers with
`status = active`. -/
theorem c8_status_only_update_frame (trigId : String) (stv : TriggerStatus)
    (reqName : Option String)
    (configOutcome : Except String (String × Option TriggerSchedule))
    (now : Int) (st : DBState)
    (hfound : (st.triggers.find? (fun t => t.id = trigId)).isSome)
    (hname : ∀ n, reqName = some n → trimSpace n ≠ "") :
    (∃ st2, updateTriggerService trigId reqName (some stv) false configOutcome
        now st = .ok st2 ∧
      st2.schedules = st.schedules ∧ st2.eventLogs = st.eventLogs ∧
      ∀ t ∈ st2.triggers, t.id = trigId → t.status = stv) ∧
    (∀ (stAny : DBState) (lim : Nat), ∀ p ∈ getDueSchedulesDB now lim stAny,
        p.trigger.status ≠ .inactive) := by
  constructor
  · rcases Option.isSome_iff_exists.mp hfound with ⟨tr, htr⟩
    have hany : st.triggers.any (fun t => t.id = trigId) = true := by
      refine List.any_eq_true.mpr ⟨tr, List.mem_of_find?_eq_some htr, ?_⟩
      simpa using List.find?_some htr
    have hmem : ∀ (f : Trigger → Trigger),
        (∀ t, (f t).status = stv) →
        ∀ t ∈ (st.triggers.map (fun t => if t.id = trigId then f t else t)),
          t.id = trigId → t.status = stv := by
      intro f hf t ht hid
      rcases List.mem_map.mp ht with ⟨t0, _, hmap⟩
      by_cases h0 : t0.id = trigId
      · rw [if_pos h0] at hmap
        rw [← hmap]
        exact hf t0
      · rw [if_neg h0] at hmap
        subst hmap
        exact absurd hid h0
    cases hn : reqName with
    | none =>
        refine ⟨{ st with triggers := st.triggers.map (fun t =>
            if t.id = trigId then { t with status := stv } else t) }, ?_, rfl,
            rfl, hmem _ (fun t => rfl)⟩
        simp [updateTriggerService, htr, updateTriggerDB, hany]
    | some n =>
        have hne : trimSpace n ≠ "" := hname n hn
        refine ⟨{ st with triggers := st.triggers.map (fun t =>
            if t.id = trigId then
              { t with name := trimSpace n, status := stv }
            else t) }, ?_, rfl, rfl, hmem _ (fun t => rfl)⟩
        simp [updateTriggerService, htr, updateTriggerDB, hany, hne]
  · intro stAny lim p hp hstatus
    have := (getDueSchedulesDB_mem now lim stAny p hp).1
    rw [hstatus] at this
    cases this

/-- Witness for C8: flipping a concrete trigger to `inactive` with a
status-only patch. -/
theorem c8_status_only_update_frame_witness :
    ((sampleCronState.triggers.find? (fun t => t.id = "t1")).isSome) ∧
    ((∃ st2, updateTriggerService "t1" none (some .inactive) false
          (.ok ("", none)) 5 sampleCronState = .ok st2 ∧
        st2.schedules = sampleCronState.schedules ∧
        st2.eventLogs = sampleCronState.eventLogs ∧
        ∀ t ∈ st2.triggers, t.id = "t1" → t.status = TriggerStatus.inactive) ∧
      (∀ (stAny : DBState) (lim : Nat), ∀ p ∈ getDueSchedulesDB 5 lim stAny,
          p.trigger.status ≠ .inactive)) :=
  ⟨by decide,
    c8_status_only_update_frame "t1" .inactive none (.ok ("", none)) 5
      sampleCronState (by decide) (fun n h => Option.noConfusion h)⟩

/-- Neither retention job can turn a non-active row of a given id back into
an active one. -/
lemma retention_step_preserves_not_active (i : String)
    (s s2 : List EventLog) (hstep : RetentionStep s s2)
    (h : ∀ l ∈ s, l.id = i → l.retentionStatus ≠ .active) :
    ∀ l ∈ s2, l.id = i → l.retentionStatus ≠ .active := by
  cases hstep with
  | archive now logs =>
      intro l hl hid
      rcases List.mem_map.mp hl with ⟨l0, hl0, hmap⟩
      by_cases hc : l0.retentionStatus = .active ∧
          l0.firedAt < now - archiveAgeSeconds
      · rw [if_pos hc] at hmap
        subst hmap
        simp
      · rw [if_neg hc] at hmap
        subst hmap
        exact h l0 hl0 hid
  | del now logs =>
      intro l hl hid
      exact h l (List.mem_of_mem_filter hl) hid

/-- Neither retention job introduces a row with an id absent from the
table. -/
lemma retention_step_preserves_absent (i : String)
    (s s2 : List EventLog) (hstep : RetentionStep s s2)
    (h : ∀ l ∈ s, l.id ≠ i) : ∀ l ∈ s2, l.id ≠ i := by
  cases hstep with
  | archive now logs =>
      intro l hl
      rcases List.mem_map.mp hl with ⟨l0, hl0, hmap⟩
      by_cases hc : l0.retentionStatus = .active ∧
          l0.firedAt < now - archiveAgeSeconds
      · rw [if_pos hc] at hmap
        subst hmap
        exact h l0 hl0
      · rw [if_neg hc] at hmap
        subst hmap
        exact h l0 hl0
  | del now logs =>
      intro l hl
      exact h l (List.mem_of_mem_filter hl)

/-- C9: retention is monotone. After an archive pass no row older than the
archive age (2 h from `fired_at`) is still `active`, and each such `active`
row reappears `archived`; after a delete pass no row older than the delete
age (48 h, measured from `fired_at` regardless of the archive history)
remains; across any sequence of retention runs a row id never observed
`active` — in particular one observed `archived` — is never observed
`active` again; and an id absent from the table stays absent, so
`GetEventLog` returns nil for it after any further runs. -/
theorem c9_retention_monotone :
    (∀ (now : Int) (logs : List EventLog), ∀ l ∈ archiveOldEvents now logs,
        l.retentionStatus = .active → ¬ (l.firedAt < now - archiveAgeSeconds)) ∧
    (∀ (now : Int) (logs : List EventLog) (l : EventLog), l ∈ logs →
        l.retentionStatus = .active → l.firedAt < now - archiveAgeSeconds →
        ({ l with retentionStatus := .archived } : EventLog) ∈
          archiveOldEvents now logs) ∧
    (∀ (now : Int) (logs : List EventLog), ∀ l ∈ deleteOldEvents now logs,
        ¬ (l.firedAt < now - deleteAgeSeconds)) ∧
    (∀ s s2, RetentionReach s s2 → ∀ i : String,
        (∀ l ∈ s, l.id = i → l.retentionStatus ≠ .active) →
        ∀ l ∈ s2, l.id = i → l.retentionStatus ≠ .active) ∧
    (∀ s s2, RetentionReach s s2 → ∀ i : String,
        (∀ l ∈ s, l.id ≠ i) →
        (∀ l ∈ s2, l.id ≠ i) ∧ getEventLogDB i s2 = none) := by
  refine ⟨?_, ?_, ?_, ?_, ?_⟩
  · intro now logs l hl hact
    rcases List.mem_map.mp hl with ⟨l0, _, hmap⟩
    by_cases hc : l0.retentionStatus = .active ∧
        l0.firedAt < now - archiveAgeSeconds
    · rw [if_pos hc] at hmap
      subst hmap
      cases hact
    · rw [if_neg hc] at hmap
      subst hmap
      intro hold
      exact hc ⟨hact, hold⟩
  · intro now logs l hl hact hold
    apply List.mem_map.mpr
    exact ⟨l, hl, by rw [if_pos ⟨hact, hold⟩]⟩
  · intro now logs l hl
    have := (List.mem_filter.mp hl).2
    simpa using this
  · intro s s2 hreach
    induction hreach with
    | refl => exact fun i h => h
    | tail _ hstep ih =>
        intro i h
        exact retention_step_preserves_not_active i _ _ hstep (ih i h)
  · intro s s2 hreach
    have habs : ∀ i : String, (∀ l ∈ s, l.id ≠ i) → ∀ l ∈ s2, l.id ≠ i := by
      induction hreach with
      | refl => exact fun i h => h
      | tail _ hstep ih =>
          intro i h
          exact retention_step_preserves_absent i _ _ hstep (ih i h)
    intro i h
    refine ⟨habs i h, ?_⟩
    apply List.find?_eq_none.mpr
    intro l hl
    simpa using habs i h l hl

/-- Witness for C9: one `active` row fired at instant 0 is archived by the
2-hour pass at instant 10000, removed by the 48-hour pass at instant
200000, and the id is no longer returned afterwards. -/
theorem c9_retention_monotone_witness :
    (sampleActiveLog.retentionStatus = RetentionStatus.active ∧
      sampleActiveLog.firedAt < 10000 - archiveAgeSeconds) ∧
    (({ sampleActiveLog with retentionStatus := .archived } : EventLog) ∈
      archiveOldEvents 10000 [sampleActiveLog]) ∧
    ((∀ l ∈ deleteOldEvents 200000 [sampleActiveLog], l.id ≠ "e1") ∧
      getEventLogDB "e1" (deleteOldEvents 200000 [sampleActiveLog]) = none) := by
  refine ⟨by decide, ?_, ?_⟩
  · exact c9_retention_monotone.2.1 10000 [sampleActiveLog] sampleActiveLog
      (by decide) (by decide) (by decide)
  · refine c9_retention_monotone.2.2.2.2 (deleteOldEvents 200000 [sampleActiveLog])
      (deleteOldEvents 200000 [sampleActiveLog]) Relation.ReflTransGen.refl "e1" ?_
    intro l hl
    have h0 : deleteOldEvents 200000 [sampleActiveLog] = [] := by decide
    rw [h0] at hl
    cases hl

/-- C5: for a webhook request addressed to an existing, active webhook
trigger whose stored config parses, if the stored schema is present and
non-empty the Firing Service is invoked exactly when the body validates
against it; a schema violation yields a 400 validation error with no event
log written and no publish; an absent (nil) or empty schema accepts any
JSON-object body and fires. -/
theorem c5_webhook_schema_gate (b : String) (tr : Trigger) (cfg : WebhookCfg)
    (validateRes : Except String Bool) (createLogErr publishErr : Option String)
    (eventId : String) (now : Int) (logs : List EventLog)
    (htype : tr.type = .webhook) (hstatus : tr.status = .active) :
    (∀ l, cfg.schema = some l → l ≠ [] →
        (((receiveWebhook (some b) (.ok (some tr)) (some cfg) validateRes
            createLogErr publishErr eventId now logs).firingInvoked = true ↔
          validateRes = .ok true) ∧
        (validateRes = .ok false →
          (receiveWebhook (some b) (.ok (some tr)) (some cfg) validateRes
            createLogErr publishErr eventId now logs).status = 400 ∧
          (receiveWebhook (some b) (.ok (some tr)) (some cfg) validateRes
            createLogErr publishErr eventId now logs).logs = logs ∧
          (receiveWebhook (some b) (.ok (some tr)) (some cfg) validateRes
            createLogErr publishErr eventId now logs).published = []))) ∧
    ((cfg.schema = none ∨ cfg.schema = some []) →
        (receiveWebhook (some b) (.ok (some tr)) (some cfg) validateRes
          createLogErr publishErr eventId now logs).firingInvoked = true) := by
  have hfire : ∀ (fr : FireResult),
      (match fr.fireError with
        | some _ =>
            ({ status := 500, eventId := some fr.eventId, firingInvoked := true,
               logs := fr.logs, published := fr.published } : HandlerResult)
        | none =>
            ({ status := 202, eventId := some fr.eventId, firingInvoked := true,
               logs := fr.logs, published := fr.published } :
              HandlerResult)).firingInvoked = true := by
    intro fr
    cases fr.fireError <;> rfl
  constructor
  · intro l hsch hne
    have hlen : 0 < l.length := List.length_pos.mpr hne
    cases validateRes with
    | error e =>
        simp [receiveWebhook, htype, hstatus, hsch, hlen]
    | ok bv =>
        cases bv with
        | false => simp [receiveWebhook, htype, hstatus, hsch, hlen]
        | true =>
            constructor
            · simp only [receiveWebhook, htype, hstatus, hsch]
              simp only [ne_eq, not_true_eq_false, if_false, reduceIte]
              rw [if_pos (by simpa using hlen)]
              simpa using hfire _
            · intro hcontra
              cases hcontra
  · intro hsch
    rcases hsch with h | h
    · simp only [receiveWebhook, htype, hstatus, h]
      simp only [ne_eq, not_true_eq_false, if_false, reduceIte]
      simpa using hfire _
    · simp only [receiveWebhook, htype, hstatus, h]
      simp only [ne_eq, not_true_eq_false, if_false, reduceIte]
      simpa using hfire _

/-- Witness for C5: a body that violates the stored schema of a concrete
active webhook trigger is rejected with 400 and nothing is logged or
published; the firing gate matches the validator verdict. -/
theorem c5_webhook_schema_gate_witness :
    (sampleWebhookTrigger.type = TriggerType.webhook ∧
      sampleWebhookTrigger.status = TriggerStatus.active) ∧
    ((∀ l, sampleWebhookCfg.schema = some l → l ≠ [] →
        (((receiveWebhook (some "y:1") (.ok (some sampleWebhookTrigger))
            (some sampleWebhookCfg) (.ok false) none none "e1" 7
            []).firingInvoked = true ↔ (.ok false : Except String Bool) = .ok true) ∧
        ((.ok false : Except String Bool) = .ok false →
          (receiveWebhook (some "y:1") (.ok (some sampleWebhookTrigger))
            (some sampleWebhookCfg) (.ok false) none none "e1" 7 []).status = 400 ∧
          (receiveWebhook (some "y:1") (.ok (some sampleWebhookTrigger))
            (some sampleWebhookCfg) (.ok false) none none "e1" 7 []).logs = [] ∧
          (receiveWebhook (some "y:1") (.ok (some sampleWebhookTrigger))
            (some sampleWebhookCfg) (.ok false) none none "e1" 7
            []).published = []))) ∧
      ((sampleWebhookCfg.schema = none ∨ sampleWebhookCfg.schema = some []) →
        (receiveWebhook (some "y:1") (.ok (some sampleWebhookTrigger))
          (some sampleWebhookCfg) (.ok false) none none "e1" 7
          []).firingInvoked = true)) :=
  ⟨⟨by decide, by decide⟩,
    c5_webhook_schema_gate "y:1" sampleWebhookTrigger sampleWebhookCfg
      (.ok false) none none "e1" 7 [] (by decide) (by decide)⟩

/-- Mapping a row transformer that preserves ids does not change which ids
occur. -/
lemma any_id_map (i : String) (rows : List TriggerSchedule)
    (f : TriggerSchedule → TriggerSchedule) (hf : ∀ r, (f r).id = r.id) :
    ((rows.map f).any (fun r => r.id = i)) = (rows.any (fun r => r.id = i)) := by
  induction rows with
  | nil => rfl
  | cons a as ih => simp [hf, ih]

/-- With a firing failure injected, `FireTrigger` reports an error. -/
lemma fireTrigger_fails_of_effect_failure (createLogErr publishErr : Option String)
    (eventId : String) (trigger : Trigger) (source : EventSource)
    (payload : Option String) (isTestRun : Bool) (now : Int)
    (logs : List EventLog) (h : createLogErr.isSome ∨ publishErr.isSome) :
    ∃ e, (fireTrigger createLogErr publishErr eventId trigger source payload
      isTestRun now logs).fireError = some e := by
  cases hc : createLogErr with
  | some e =>
      exact ⟨"failed to create event log: " ++ e, by simp [fireTrigger, hc]⟩
  | none =>
      cases hp : publishErr with
      | some e =>
          exact ⟨"failed to publish event to Kafka: " ++ e,
            by simp [fireTrigger, hc, hp]⟩
      | none =>
          rw [hc, hp] at h
          simp at h

/-- C1: when the Firing Service fails for a claimed schedule, the engine
cancels the schedule if `attempt_count + 1` has reached the retry ceiling
`M`, and otherwise reverts it to `pending` with `attempt_count` incremented
and `last_attempt_at` stamped; in neither failure case does the schedule
end up `completed`, and the per-schedule error is reported to the loop. -/
theorem c1_failure_reverts_or_cancels (M : Nat) (oc : EngineOracles)
    (sch : TriggerSchedule) (trig : Trigger) (now : Int) (st : DBState)
    (hex : st.schedules.any (fun r => r.id = sch.id) = true)
    (hparse : oc.parseOk = true)
    (hfail : oc.createLogErr.isSome ∨ oc.publishErr.isSome) :
    (processSchedule M oc ⟨sch, trig⟩ now st).2.isSome = true ∧
    (M ≤ sch.attemptCount + 1 →
        (processSchedule M oc ⟨sch, trig⟩ now st).1.schedules =
          st.schedules.map (fun r =>
            if r.id = sch.id then
              { r with status := .cancelled, updatedAt := now }
            else r)) ∧
    (sch.attemptCount + 1 < M →
        (processSchedule M oc ⟨sch, trig⟩ now st).1.schedules =
          st.schedules.map (fun r =>
            if r.id = sch.id then
              { r with status := .pending, attemptCount := r.attemptCount + 1,
                       lastAttemptAt := some now, updatedAt := now }
            else r)) ∧
    (∀ r ∈ (processSchedule M oc ⟨sch, trig⟩ now st).1.schedules,
        r.id = sch.id → r.status ≠ .completed) := by
  have hupd1 : updateScheduleStatusDB sch.id .processing now st.schedules =
      .ok (st.schedules.map (fun r =>
        if r.id = sch.id then { r with status := .processing, updatedAt := now }
        else r)) := by
    rw [updateScheduleStatusDB, if_pos hex]
  have hany1 : ((st.schedules.map (fun r =>
      if r.id = sch.id then { r with status := .processing, updatedAt := now }
      else r)).any (fun r => r.id = sch.id)) = true := by
    have hpres := any_id_map sch.id st.schedules
      (fun r =>
        if r.id = sch.id then { r with status := .processing, updatedAt := now }
        else r)
      (fun r => by
        by_cases h : r.id = sch.id
        · simp [h]
        · simp [h])
    rw [hpres]
    exact hex
  rcases fireTrigger_fails_of_effect_failure oc.createLogErr oc.publishErr
      oc.eventId trig .scheduler oc.payload false now st.eventLogs hfail with
    ⟨e, hfe⟩
  by_cases hM : M ≤ sch.attemptCount + 1
  · have hupd2 : updateScheduleStatusDB sch.id .cancelled now
        (st.schedules.map (fun r =>
          if r.id = sch.id then
            { r with status := .processing, updatedAt := now }
          else r)) =
        .ok ((st.schedules.map (fun r =>
          if r.id = sch.id then
            { r with status := .processing, updatedAt := now }
          else r)).map (fun r =>
            if r.id = sch.id then { r with status := .cancelled, updatedAt := now }
            else r)) := by
      rw [updateScheduleStatusDB, if_pos hany1]
    have hres : processSchedule M oc ⟨sch, trig⟩ now st =
        ({ st with
           schedules := (st.schedules.map (fun r =>
              if r.id = sch.id then
                { r with status := .processing, updatedAt := now }
              else r)).map (fun r =>
                if r.id = sch.id then
                  { r with status := .cancelled, updatedAt := now }
                else r),
           eventLogs := (fireTrigger oc.createLogErr oc.publishErr oc.eventId
             trig .scheduler oc.payload false now st.eventLogs).logs },
          some e) := by
      simp only [processSchedule, hupd1, hparse, hfe, hupd2]
      simp [hM]
    have hmap : (st.schedules.map (fun r =>
        if r.id = sch.id then
          { r with status := .processing, updatedAt := now }
        else r)).map (fun r =>
          if r.id = sch.id then { r with status := .cancelled, updatedAt := now }
          else r) =
        st.schedules.map (fun r =>
          if r.id = sch.id then { r with status := .cancelled, updatedAt := now }
          else r) := by
      rw [List.map_map]
      apply List.map_congr_left
      intro r _
      by_cases h : r.id = sch.id
      · simp [Function.comp, h]
      · simp [Function.comp, h]
    refine ⟨by rw [hres]; rfl, fun _ => by rw [hres]; exact hmap,
      fun hlt => absurd hM (by omega), ?_⟩

    intro r hr hid
    rw [hres] at hr
    simp only at hr
    rw [hmap] at hr
    rcases List.mem_map.mp hr with ⟨r0, _, hmapr⟩
    by_cases h0 : r0.id = sch.id
    · rw [if_pos h0] at hmapr
      rw [← hmapr]
      intro hc
      cases hc
    · rw [if_neg h0] at hmapr
      subst hmapr
      exact absurd hid h0
  · have hupd2 : revertScheduleToPendingDB sch.id now
        (st.schedules.map (fun r =>
          if r.id = sch.id then
            { r with status := .processing, updatedAt := now }
          else r)) =
        .ok ((st.schedules.map (fun r =>
          if r.id = sch.id then
            { r with status := .processing, updatedAt := now }
          else r)).map (fun r =>
            if r.id = sch.id then
              { r with status := .pending, attemptCount := r.attemptCount + 1,
                       lastAttemptAt := some now, updatedAt := now }
            else r)) := by
      rw [revertScheduleToPendingDB, if_pos hany1]
    have hres : processSchedule M oc ⟨sch, trig⟩ now st =
        ({ st with
           schedules := (st.schedules.map (fun r =>
              if r.id = sch.id then
                { r with status := .processing, updatedAt := now }
              else r)).map (fun r =>
                if r.id = sch.id then
                  { r with status := .pending,
                           attemptCount := r.attemptCount + 1,
                           lastAttemptAt := some now, updatedAt := now }
                else r),
           eventLogs := (fireTrigger oc.createLogErr oc.publishErr oc.eventId
             trig .scheduler oc.payload false now st.eventLogs).logs },
          some e) := by
      simp only [processSchedule, hupd1, hparse, hfe, hupd2]
      simp [hM]
    have hmap : (st.schedules.map (fun r =>
        if r.id = sch.id then
          { r with status := .processing, updatedAt := now }
        else r)).map (fun r =>
          if r.id = sch.id then
            { r with status := .pending, attemptCount := r.attemptCount + 1,
                     lastAttemptAt := some now, updatedAt := now }
          else r) =
        st.schedules.map (fun r =>
          if r.id = sch.id then
            { r with status := .pending, attemptCount := r.attemptCount + 1,
                     lastAttemptAt := some now, updatedAt := now }
          else r) := by
      rw [List.map_map]
      apply List.map_congr_left
      intro r _
      by_cases h : r.id = sch.id
      · simp [Function.comp, h]
      · simp [Function.comp, h]
    refine ⟨by rw [hres]; rfl, fun hge => absurd hge hM,
      fun _ => by rw [hres]; exact hmap, ?_⟩
    intro r hr hid
    rw [hres] at hr
    simp only at hr
    rw [hmap] at hr
    rcases List.mem_map.mp hr with ⟨r0, _, hmapr⟩
    by_cases h0 : r0.id = sch.id
    · rw [if_pos h0] at hmapr
      rw [← hmapr]
      intro hc
      cases hc
    · rw [if_neg h0] at hmapr
      subst hmapr
      exact absurd hid h0

/-- Witness for C1: a first firing failure (`attempt_count = 0`, ceiling 5)
of the concrete pending schedule reverts it to `pending` with the attempt
counter incremented and `last_attempt_at` stamped. -/
theorem c1_failure_reverts_or_cancels_witness :
    ((sampleCronState.schedules.any (fun r => r.id = "s1")) = true ∧
      sampleFailOracles.parseOk = true ∧
      (sampleFailOracles.createLogErr.isSome ∨
        sampleFailOracles.publishErr.isSome)) ∧
    ((processSchedule 5 sampleFailOracles
        ⟨{ id := "s1", triggerId := "t1", fireAt := 1, status := .pending,
           attemptCount := 0, lastAttemptAt := none, updatedAt := 0 },
         { id := "t1", name := "n", type := .cronScheduled, status := .active,
           config := "c" }⟩ 6 sampleCronState).2.isSome = true ∧
      (5 ≤ 0 + 1 →
        (processSchedule 5 sampleFailOracles
          ⟨{ id := "s1", triggerId := "t1", fireAt := 1, status := .pending,
             attemptCount := 0, lastAttemptAt := none, updatedAt := 0 },
           { id := "t1", name := "n", type := .cronScheduled,
             status := .active, config := "c" }⟩ 6
           sampleCronState).1.schedules =
          sampleCronState.schedules.map (fun r =>
            if r.id = "s1" then
              { r with status := .cancelled, updatedAt := 6 }
            else r)) ∧
      (0 + 1 < 5 →
        (processSchedule 5 sampleFailOracles
          ⟨{ id := "s1", triggerId := "t1", fireAt := 1, status := .pending,
             attemptCount := 0, lastAttemptAt := none, updatedAt := 0 },
           { id := "t1", name := "n", type := .cronScheduled,
             status := .active, config := "c" }⟩ 6
           sampleCronState).1.schedules =
          sampleCronState.schedules.map (fun r =>
            if r.id = "s1" then
              { r with status := .pending, attemptCount := r.attemptCount + 1,
                       lastAttemptAt := some 6, updatedAt := 6 }
            else r)) ∧
      (∀ r ∈ (processSchedule 5 sampleFailOracles
          ⟨{ id := "s1", triggerId := "t1", fireAt := 1, status := .pending,
             attemptCount := 0, lastAttemptAt := none, updatedAt := 0 },
           { id := "t1", name := "n", type := .cronScheduled,
             status := .active, config := "c" }⟩ 6
           sampleCronState).1.schedules,
        r.id = "s1" → r.status ≠ .completed)) :=
  ⟨⟨by decide, by decide, by decide⟩,
    c1_failure_reverts_or_cancels 5 sampleFailOracles
      { id := "s1", triggerId := "t1", fireAt := 1, status := .pending,
        attemptCount := 0, lastAttemptAt := none, updatedAt := 0 }
      { id := "t1", name := "n", type := .cronScheduled, status := .active,
        config := "c" } 6 sampleCronState (by decide) (by decide) (by decide)⟩

/-- Every element of a batch contributes to exactly one of the two
counters, whatever the per-schedule outcomes are. -/
lemma runScheduleBatch_counts (ocs : Nat → EngineOracles) (now : Int) :
    ∀ (batch : List ScheduleWithTrigger) (i : Nat) (st : DBState),
      (runScheduleBatch ocs now batch i st).2.1 +
        (runScheduleBatch ocs now batch i st).2.2 = batch.length := by
  intro batch
  induction batch with
  | nil => intro i st; rfl
  | cons swt rest ih =>
      intro i st
      simp only [runScheduleBatch]
      cases h : (processSchedule engineMaxRetries (ocs i) swt now st).2 with
      | none =>
          simp only [h, List.length_cons]
          have := ih (i + 1) (processSchedule engineMaxRetries (ocs i) swt now st).1
          omega
      | some e =>
          simp only [h, List.length_cons]
          have := ih (i + 1) (processSchedule engineMaxRetries (ocs i) swt now st).1
          omega

/-- C10: one scheduler tick isolates per-schedule errors. Whatever the
injected outcomes (claim failures, config-parse failures, firing failures,
post-fire update failures), every schedule of the batch returned by
`GetDueSchedules` is processed — each lands in exactly one of the
success/failure counters, so their sum is the batch length — and the tick
itself returns a state with no error; a `GetDueSchedules` error only ends
the tick early. -/
theorem c10_tick_error_isolation (dueErr : Option String)
    (ocs : Nat → EngineOracles) (now : Int) (lim : Nat) (st : DBState) :
    (dueErr = none →
      (processSchedules dueErr ocs now lim st).2.1 +
        (processSchedules dueErr ocs now lim st).2.2 =
        (getDueSchedulesDB now lim st).length) ∧
    (∀ e, dueErr = some e → processSchedules dueErr ocs now lim st = (st, 0, 0)) := by
  constructor
  · intro h
    subst h
    exact runScheduleBatch_counts ocs now (getDueSchedulesDB now lim st) 0 st
  · intro e h
    subst h
    rfl

/-- Witness for C10: a tick over the concrete one-row state with a failing
publisher processes its single due schedule and counts it as the one
failure. -/
theorem c10_tick_error_isolation_witness :
    ((none : Option String) = none) ∧
    ((processSchedules none (fun _ => sampleFailOracles) 6 100
        sampleCronState).2.1 +
      (processSchedules none (fun _ => sampleFailOracles) 6 100
        sampleCronState).2.2 =
      (getDueSchedulesDB 6 100 sampleCronState).length) :=
  ⟨rfl,
    (c10_tick_error_isolation none (fun _ => sampleFailOracles) 6 100
      sampleCronState).1 rfl⟩

/-- Witness for the amended C2 theorem at a concrete row. -/
theorem c2_update_schedule_status_unconditional_witness :
    ∃ rows2, updateScheduleStatusDB "s1" .processing 2 [alreadyClaimedRow] = .ok rows2 ∧
      ∀ r ∈ rows2, r.id = "s1" → r.status = ScheduleStatus.processing :=
  c2_update_schedule_status_unconditional "s1" .processing 2 [alreadyClaimedRow]
    ⟨alreadyClaimedRow, by decide, by decide⟩

end ETP
